import Mathlib

/-
Verification of the SIGMA repository: a mission-selection menu game with
timer-driven loading animations and a procedural sound manager.

The definitions below are a shallow embedding of the Python sources:
  backend/Game/main.py               (GameEngine.handle_events, start_loading)
  backend/Game/engine.py             (GameEngine.handle_events, simple variant)
  backend/Game/loading_animations.py (LoadingAnimation, factory)
  backend/Game/sounds.py             (SoundManager)
  backend/Database/mission_store.py  (fetch_all_missions)
  backend/Database/db.py             (get_connection)

Python machine-level conventions used throughout:
  - Python integers are unbounded, embedded as Int / Nat.
  - Python `a % b` on ints is floored modulo and raises ZeroDivisionError
    when b = 0; for b > 0 floored modulo coincides with Lean's Int.emod,
    so the embedding returns `Option Int`, `none` marking the raise.
  - A Python function that can raise an uncaught exception is embedded as a
    function into `Option`/`Except`; `none`/`error` marks the raise.
  - Float arithmetic on progress fractions and audio amplitudes is embedded
    over the exact rationals.
-/

namespace SIGMA

/-- Python integer modulo: floored division remainder, `none` when the divisor
is zero (ZeroDivisionError). For a positive divisor, Python's floored modulo
agrees with `Int.emod`. -/
def pymod (a b : Int) : Option Int :=
  if b = 0 then none else some (a % b)

/-- The screens the menu flow moves through (`self.state` in main.py:
"menu" or "loading"; engine.py adds "gameplay"/"result"). -/
inductive Screen where
  | menu
  | loading
  deriving DecidableEq, Repr

/-- Key-down inputs handled in the menu branch of `handle_events`. -/
inductive MenuInput where
  | up
  | down
  | confirm
  deriving DecidableEq, Repr

/-- The menu-relevant part of `GameEngine`: `len(self.missions)`,
`self.selected_index`, `self.state`. -/
structure MenuState where
  numMissions : Nat
  selectedIndex : Int
  screen : Screen
  deriving DecidableEq, Repr

/-- One key-down event in the "menu" state of main.py `handle_events`
(lines 110-134). `K_RETURN` guards the index before `start_loading`;
`K_DOWN`/`K_UP` update `selected_index` by `±1 % len(self.missions)` with no
guard, so an empty mission list raises ZeroDivisionError (`none`). -/
def handleMenuInput (s : MenuState) : MenuInput → Option MenuState
  | MenuInput.confirm =>
      if 0 ≤ s.selectedIndex ∧ s.selectedIndex < (s.numMissions : Int) then
        some { s with screen := Screen.loading }
      else
        some s
  | MenuInput.down =>
      (pymod (s.selectedIndex + 1) (s.numMissions : Int)).map
        fun j => { s with selectedIndex := j }
  | MenuInput.up =>
      (pymod (s.selectedIndex - 1) (s.numMissions : Int)).map
        fun j => { s with selectedIndex := j }

/-- One key-down event in the "menu" state of engine.py `handle_events`
(lines 77-92): same unguarded modulo navigation, and `K_RETURN` moves to the
loading screen without any check of the mission list. -/
def engineHandleMenuInput (s : MenuState) : MenuInput → Option MenuState
  | MenuInput.confirm => some { s with screen := Screen.loading }
  | MenuInput.down =>
      (pymod (s.selectedIndex + 1) (s.numMissions : Int)).map
        fun j => { s with selectedIndex := j }
  | MenuInput.up =>
      (pymod (s.selectedIndex - 1) (s.numMissions : Int)).map
        fun j => { s with selectedIndex := j }

/-- Pressing "down" `k` times in a row from state `s` (main.py handler);
`none` as soon as one press raises. -/
def iterateDown (s : MenuState) : Nat → Option MenuState
  | 0 => some s
  | k + 1 => (handleMenuInput s MenuInput.down).bind fun s2 => iterateDown s2 k

/-- The startup state when `fetch_all_missions()` returned the empty list:
`selected_index = 0`, state "menu". -/
def emptyMenuState : MenuState :=
  { numMissions := 0, selectedIndex := 0, screen := Screen.menu }

/-- The timing state of `LoadingAnimation` (loading_animations.py lines 6-34):
`progress` in [0,1], `complete`, `start_time` and `duration` in milliseconds
(pygame ticks). Float arithmetic is embedded over ℚ. -/
structure LoadingAnimationState where
  progress : ℚ
  complete : Bool
  start_time : ℤ
  duration : ℤ
  deriving DecidableEq, Repr

/-- `LoadingAnimation.start` (lines 16-20): reset progress and the complete
flag, record the current tick as `start_time`. -/
def LoadingAnimationState.start (a : LoadingAnimationState) (now : ℤ) :
    LoadingAnimationState :=
  { a with progress := 0, complete := false, start_time := now }

/-- `LoadingAnimation.update` (lines 22-30): early-return `True` once
complete; otherwise `progress = min(1.0, elapsed / duration)` and
`complete = progress >= 1.0`, returning the new complete flag. `now` is the
value of `pygame.time.get_ticks()` at the call. -/
def LoadingAnimationState.update (a : LoadingAnimationState) (now : ℤ) :
    LoadingAnimationState × Bool :=
  if a.complete then (a, true)
  else
    let elapsed : ℚ := ((now - a.start_time : ℤ) : ℚ)
    let p : ℚ := min 1 (elapsed / (a.duration : ℚ))
    let c : Bool := decide ((1 : ℚ) ≤ p)
    ({ a with progress := p, complete := c }, c)

/-- The closed set of loading-animation variants constructed by the factory
in loading_animations.py: `HackingAnimation` (duration 3500 ms) and
`DownloadAnimation` (duration 4000 ms). -/
inductive AnimKind where
  | hack
  | download
  deriving DecidableEq, Repr

/-- The `animations` lookup table of `get_animation_for_mission`
(loading_animations.py lines 212-216). -/
def animationTable : List (String × AnimKind) :=
  [("hack", AnimKind.hack), ("download", AnimKind.download)]

/-- Python `str.lower()` on the ASCII mission-type tags: lower-case each
character (Lean's `String.toLower` has the same meaning but its `String.map`
implementation does not reduce; this explicit character map does). -/
def pyLower (s : String) : String :=
  String.mk (s.data.map Char.toLower)

/-- `get_animation_for_mission` (lines 210-220): lower-case the mission type,
fall back to the key `'hack'` when it is not in the table, and construct the
chosen variant. -/
def get_animation_for_mission (mission_type : String) : AnimKind :=
  let key := if (animationTable.lookup (pyLower mission_type)).isSome then
    pyLower mission_type else "hack"
  (animationTable.lookup key).getD AnimKind.hack

/-- The `duration` each variant's `__init__` sets (lines 41 and 129). -/
def animationDuration : AnimKind → ℤ
  | AnimKind.hack => 3500
  | AnimKind.download => 4000

/-- The freshly constructed animation object of a variant, before `start`. -/
def mkLoadingAnimation (k : AnimKind) : LoadingAnimationState :=
  { progress := 0, complete := false, start_time := 0,
    duration := animationDuration k }

/-- The observable state of `SoundManager` (sounds.py lines 33-56):
registered sound-effect names (`self.sounds` maps names to buffers, and
`load_sound` only ever stores a non-None buffer, so the keys suffice),
registered music-track names, the mute flag, the three stored volume levels,
`self.current_music`, and the sound currently loaded on the dedicated music
channel (`self.music_channel`). -/
structure SoundManager where
  sounds : List String
  music_tracks : List String
  muted : Bool
  music_volume : ℚ
  sfx_volume : ℚ
  ambient_volume : ℚ
  current_music : Option String
  music_channel : Option String
  deriving DecidableEq, Repr

/-- The manager as built by `SoundManager.__init__` (lines 33-56) after
`setup_sounds`/`setup_music`: the generated effect and track names, unmuted,
volumes 0.6 / 0.7 / 0.4, nothing playing. -/
def initSoundManager : SoundManager :=
  { sounds := ["select", "confirm", "back", "error", "typing", "glitch",
      "hack_start", "download", "decrypt", "success", "failure", "keyboard"],
    music_tracks := ["menu", "hacking", "tense", "success"],
    muted := false, music_volume := 6/10, sfx_volume := 7/10,
    ambient_volume := 4/10, current_music := none, music_channel := none }

/-- `SoundManager.play` (lines 128-155). `freeChannel` is the result of
`pygame.mixer.find_channel(force=False)`; when it is None the code does NOT
return None but falls back to `pygame.mixer.Channel(2)`. `playbackError`
marks an exception inside the try block, which the bare except absorbs,
falling off the end of the function (returning None). -/
def SoundManager.play (s : SoundManager) (soundName : String)
    (freeChannel : Option Nat) (playbackError : Bool) : Option Nat :=
  if s.muted ∨ soundName ∉ s.sounds then none
  else if playbackError then none
  else some (freeChannel.getD 2)

/-- The clamp `max(0.0, min(1.0, v))` used on every stored volume in
`set_volumes` (lines 176-178). -/
def clamp01 (v : ℚ) : ℚ :=
  max 0 (min 1 v)

/-- `SoundManager.set_volumes` (lines 172-195): store the clamped levels
(the channel-volume updates it also performs touch pygame channels only,
none of the fields modelled here). -/
def SoundManager.set_volumes (s : SoundManager) (mv sv av : ℚ) : SoundManager :=
  { s with music_volume := clamp01 mv, sfx_volume := clamp01 sv
           ambient_volume := clamp01 av }

/-- `SoundManager.toggle_mute` (lines 157-170): flip the flag; when now muted
only channel volumes are zeroed (no stored field changes); when now unmuted,
`set_volumes` is re-applied to the stored levels. Returns the new flag. -/
def SoundManager.toggle_mute (s : SoundManager) : SoundManager × Bool :=
  let s1 := { s with muted := !s.muted }
  if s1.muted then (s1, s1.muted)
  else (s1.set_volumes s1.music_volume s1.sfx_volume s1.ambient_volume, s1.muted)

/-- `SoundManager.stop_music` (lines 267-274): when a track is current, stop
or fade out the music channel and clear `current_music`. The model takes the
post-fade view of the channel: nothing left playing on it. -/
def SoundManager.stop_music (s : SoundManager) (fade_out : ℤ) : SoundManager :=
  if s.current_music.isSome then
    { s with music_channel := none, current_music := none }
  else s

/-- `SoundManager.play_music` (lines 197-228): return False when muted or the
track is unknown; otherwise stop any current music, then play the track on the
dedicated music channel (a pygame `Channel.play` replaces whatever that
channel held; the fade-in branch replays the same track) and record it as
`current_music`. Generated tracks always have a non-None sound. -/
def SoundManager.play_music (s : SoundManager) (track : String)
    (fade_in : ℤ) : SoundManager × Bool :=
  if s.muted ∨ track ∉ s.music_tracks then (s, false)
  else
    let s1 := if s.current_music.isSome then s.stop_music 1000 else s
    ({ s1 with music_channel := some track, current_music := some track }, true)

/-- Failures of the external mission data source. -/
inductive DbError where
  | connectionFailed
  | queryFailed
  deriving DecidableEq, Repr

/-- One row of `SELECT id, name, difficulty, is_active, created_at FROM
missions` (mission_store.py line 48), the timestamp already rendered by
`strftime`. -/
structure MissionRow where
  id : ℤ
  name : String
  difficulty : String
  is_active : Bool
  created_at : String
  deriving DecidableEq, Repr

/-- The dictionary `fetch_all_missions` builds per row (lines 52-62). -/
structure Mission where
  id : ℤ
  name : String
  difficulty : String
  is_active : Bool
  created_at : String
  deriving DecidableEq, Repr

/-- The per-row dictionary construction in the fetch loop. -/
def rowToMission (r : MissionRow) : Mission :=
  { id := r.id, name := r.name, difficulty := r.difficulty,
    is_active := r.is_active, created_at := r.created_at }

/-- `get_connection` (db.py lines 19-31): on a connection failure the except
branch prints and RE-RAISES, so the outcome passes through unchanged. -/
def get_connection (outcome : Except DbError Unit) : Except DbError Unit :=
  outcome

/-- `fetch_all_missions` (mission_store.py lines 39-72). The call to
`get_connection()` sits OUTSIDE the try block, so a connection failure
propagates to the caller; only errors in the query/row-processing path are
absorbed by the except branch returning `[]`. `queryOutcome` is the result
of executing the fetch query and reading the rows. -/
def fetch_all_missions (connOutcome : Except DbError Unit)
    (queryOutcome : Except DbError (List MissionRow)) :
    Except DbError (List Mission) :=
  match get_connection connOutcome with
  | Except.error e => Except.error e
  | Except.ok _ =>
      match queryOutcome with
      | Except.error _ => Except.ok []
      | Except.ok rows => Except.ok (rows.map rowToMission)

/-- Truncation toward zero, numpy's `astype(numpy.int16)` on an in-range
float value. -/
def pytrunc (q : ℚ) : ℤ :=
  if 0 ≤ q then ⌊q⌋ else ⌈q⌉

/-- `numpy.clip(x, lo, hi)`. -/
def clip (lo hi x : ℚ) : ℚ :=
  max lo (min hi x)

/-- Sample times of `_create_beep` (sounds.py lines 657-673):
`numpy.linspace(0, duration/1000, n, False)` at index i is
`(duration/1000) * i / n`. `duration` is in milliseconds. -/
def beepSampleTime (duration : ℚ) (n i : ℕ) : ℚ :=
  (duration / 1000) * i / n

/-- The i-th sample of `_create_beep` before integer conversion:
`sin(2*pi*frequency*t) * 0.5`. `sine` stands for the real sine evaluated at
`pi` times its argument, kept abstract (bounded by 1 in magnitude). -/
def beepTone (sine : ℚ → ℚ) (frequency duration : ℚ) (n i : ℕ) : ℚ :=
  sine (2 * frequency * beepSampleTime duration n i) * (1/2)

/-- The i-th 16-bit sample of `_create_beep`: `(tone * 32767).astype(int16)`
(no envelope and no clipping in this generator). -/
def beepInt16 (sine : ℚ → ℚ) (frequency duration : ℚ) (n i : ℕ) : ℤ :=
  pytrunc (beepTone sine frequency duration n i * 32767)

/-- `_create_error_sound` (lines 624-655): `n_samples = int(44100 * 0.3)`. -/
def errNSamples : ℕ := 13230

/-- `attack = int(0.05 * sample_rate)` samples. -/
def errAttackLen : ℕ := 2205

/-- `release = int(0.15 * sample_rate)` samples. -/
def errReleaseLen : ℕ := 6615

/-- The falling pitch `numpy.linspace(880, 220, n_samples)` at index i. -/
def errFreq (i : ℕ) : ℚ :=
  880 + (220 - 880) * i / (errNSamples - 1)

/-- `numpy.linspace(0, 0.3, n_samples, False)` at index i. -/
def errTime (i : ℕ) : ℚ :=
  (3/10) * i / errNSamples

/-- The amplitude envelope of `_create_error_sound`:
ones, then `envelope[:attack] = linspace(0, 1, attack)` and
`envelope[-release:] = linspace(1, 0, release)` (attack and release regions
do not overlap: 2205 < 13230 - 6615). -/
def errEnvelope (i : ℕ) : ℚ :=
  if i < errAttackLen then (i : ℚ) / (errAttackLen - 1)
  else if errNSamples - errReleaseLen ≤ i then
    1 - ((i - (errNSamples - errReleaseLen) : ℕ) : ℚ) / (errReleaseLen - 1)
  else 1

/-- The i-th sample of `_create_error_sound` after the final clip:
`clip(0.4 * sin(2*pi*freq*t) * envelope, -0.99, 0.99)`. -/
def errAudio (sine : ℚ → ℚ) (i : ℕ) : ℚ :=
  clip (-(99/100)) (99/100) ((4/10) * sine (2 * errFreq i * errTime i) * errEnvelope i)

/-- The i-th 16-bit sample of `_create_error_sound`. -/
def errInt16 (sine : ℚ → ℚ) (i : ℕ) : ℤ :=
  pytrunc (errAudio sine i * 32767)

/-- `_create_download_sound` (lines 704-729): rising tone
`sin(2*pi*freq*t) * 0.3` plus masked noise, clipped to [-1, 1]. `tone` is the
pre-noise sample value, `noise` the (masked) noise value added at index i. -/
def dlAudio (tone noise : ℚ) : ℚ :=
  clip (-1) 1 (tone * (3/10) + noise)

/-- The i-th 16-bit sample of `_create_download_sound`. -/
def dlInt16 (tone noise : ℚ) : ℤ :=
  pytrunc (dlAudio tone noise * 32767)

/-- C1: with n = 0 missions the claim says "up"/"down"/"confirm" are no-ops
that never raise. On the code, "down" and "up" evaluate
`(selected_index ± 1) % len(self.missions)` with `len = 0` and raise
ZeroDivisionError (embedded as `none`); only main.py's "confirm" is a guarded
no-op, and engine.py's "confirm" even transitions to the loading screen. -/
theorem handleMenuInput_empty_raises :
    handleMenuInput emptyMenuState MenuInput.down = none ∧
    handleMenuInput emptyMenuState MenuInput.up = none ∧
    handleMenuInput emptyMenuState MenuInput.confirm = some emptyMenuState ∧
    engineHandleMenuInput emptyMenuState MenuInput.confirm =
      some { emptyMenuState with screen := Screen.loading } := by
  decide

theorem iterateDown_spec (n : Nat) (hn : 0 < n) :
    ∀ (k : Nat) (i : Int) (sc : Screen), 0 ≤ i → i < (n : Int) →
      iterateDown ⟨n, i, sc⟩ k = some ⟨n, (i + k) % (n : Int), sc⟩ := by
  intro k
  induction k with
  | zero =>
      intro i sc h0 hi
      simp only [iterateDown, Nat.cast_zero, add_zero]
      rw [Int.emod_eq_of_lt h0 hi]
  | succ k ih =>
      intro i sc h0 hi
      have hne : (n : Int) ≠ 0 := Int.natCast_ne_zero.mpr hn.ne'
      have hpos : (0 : Int) < (n : Int) := by exact_mod_cast hn
      have hstep : handleMenuInput ⟨n, i, sc⟩ MenuInput.down =
          some ⟨n, (i + 1) % (n : Int), sc⟩ := by
        simp [handleMenuInput, pymod, hne]
      rw [iterateDown, hstep, Option.some_bind]
      rw [ih ((i + 1) % (n : Int)) sc (Int.emod_nonneg _ hne) (Int.emod_lt_of_pos _ hpos)]
      congr 1
      rw [Int.emod_add_emod]
      have hswap : i + 1 + (k : Int) = i + ((k : Int) + 1) := by ring
      rw [hswap]
      norm_cast

/-- C2: for n ≥ 1 and selected_index in range, a single "down" or "up" keeps
selected_index in [0, n-1] (the modulo wrap never raises and never goes out of
range, and is the identity when n = 1), and n presses of "down" in a row
return selected_index to its starting value. -/
theorem menu_navigation_wraps (n : Nat) (i : Int) (hn : 1 ≤ n)
    (h0 : 0 ≤ i) (hi : i < (n : Int)) :
    (∃ j, handleMenuInput ⟨n, i, Screen.menu⟩ MenuInput.down =
        some ⟨n, j, Screen.menu⟩ ∧ 0 ≤ j ∧ j < (n : Int)) ∧
    (∃ j, handleMenuInput ⟨n, i, Screen.menu⟩ MenuInput.up =
        some ⟨n, j, Screen.menu⟩ ∧ 0 ≤ j ∧ j < (n : Int)) ∧
    (n = 1 →
      handleMenuInput ⟨n, i, Screen.menu⟩ MenuInput.down =
        some ⟨n, i, Screen.menu⟩ ∧
      handleMenuInput ⟨n, i, Screen.menu⟩ MenuInput.up =
        some ⟨n, i, Screen.menu⟩) ∧
    iterateDown ⟨n, i, Screen.menu⟩ n = some ⟨n, i, Screen.menu⟩ := by
  have hpos : 0 < n := hn
  have hne : (n : Int) ≠ 0 := by exact_mod_cast hpos.ne'
  have hposZ : (0 : Int) < (n : Int) := by exact_mod_cast hpos
  refine ⟨⟨(i + 1) % (n : Int), ?_, Int.emod_nonneg _ hne, Int.emod_lt_of_pos _ hposZ⟩,
    ⟨(i - 1) % (n : Int), ?_, Int.emod_nonneg _ hne, Int.emod_lt_of_pos _ hposZ⟩, ?_, ?_⟩
  · simp [handleMenuInput, pymod, hne]
  · simp [handleMenuInput, pymod, hne]
  · intro h1
    subst h1
    have hieq : i = 0 := by omega
    subst hieq
    exact ⟨by decide, by decide⟩
  · rw [iterateDown_spec n hpos n i Screen.menu h0 hi]
    congr 1
    have h2 : (i + (n : Int)) % (n : Int) = i % (n : Int) := by
      conv_lhs => rw [show i + (n : Int) = i + (n : Int) * 1 by rw [mul_one]]
      rw [Int.add_mul_emod_self_left]
    rw [h2, Int.emod_eq_of_lt h0 hi]

theorem menu_navigation_wraps_witness :
    (1 : Nat) ≤ 2 ∧ (0 : Int) ≤ 1 ∧ (1 : Int) < ((2 : Nat) : Int) ∧
    ((∃ j, handleMenuInput ⟨2, 1, Screen.menu⟩ MenuInput.down =
        some ⟨2, j, Screen.menu⟩ ∧ 0 ≤ j ∧ j < ((2 : Nat) : Int)) ∧
      (∃ j, handleMenuInput ⟨2, 1, Screen.menu⟩ MenuInput.up =
        some ⟨2, j, Screen.menu⟩ ∧ 0 ≤ j ∧ j < ((2 : Nat) : Int)) ∧
      ((2 : Nat) = 1 →
        handleMenuInput ⟨2, 1, Screen.menu⟩ MenuInput.down =
          some ⟨2, 1, Screen.menu⟩ ∧
        handleMenuInput ⟨2, 1, Screen.menu⟩ MenuInput.up =
          some ⟨2, 1, Screen.menu⟩) ∧
      iterateDown ⟨2, 1, Screen.menu⟩ 2 = some ⟨2, 1, Screen.menu⟩) :=
  ⟨by decide, by decide, by decide,
    menu_navigation_wraps 2 1 (by decide) (by decide) (by decide)⟩

/-- C3: after `start`, `update` with non-decreasing ticks is monotonic:
the first call puts progress at `min 1 (elapsed / duration)` inside [0,1],
a later call never decreases it, and once `complete` is true every
subsequent `update` is a no-op returning `true`. -/
theorem loading_update_monotone (a : LoadingAnimationState) (t0 t1 t2 : ℤ)
    (hd : 0 < a.duration) (h01 : t0 ≤ t1) (h12 : t1 ≤ t2) :
    (0 ≤ ((a.start t0).update t1).1.progress ∧
      ((a.start t0).update t1).1.progress ≤ 1 ∧
      ((a.start t0).update t1).1.progress =
        min 1 (((t1 - t0 : ℤ) : ℚ) / (a.duration : ℚ))) ∧
    ((a.start t0).update t1).1.progress ≤
      (((a.start t0).update t1).1.update t2).1.progress ∧
    (∀ (b : LoadingAnimationState) (t : ℤ), b.complete = true →
      b.update t = (b, true)) := by
  have hdq : (0 : ℚ) < (a.duration : ℚ) := by exact_mod_cast hd
  have hnoop : ∀ (b : LoadingAnimationState) (t : ℤ), b.complete = true →
      b.update t = (b, true) := by
    intro b t hb
    simp [LoadingAnimationState.update, hb]
  have h1p : ((a.start t0).update t1).1.progress =
      min 1 (((t1 - t0 : ℤ) : ℚ) / (a.duration : ℚ)) := by
    simp [LoadingAnimationState.start, LoadingAnimationState.update]
  have h1s : ((a.start t0).update t1).1.start_time = t0 := by
    simp [LoadingAnimationState.start, LoadingAnimationState.update]
  have h1d : ((a.start t0).update t1).1.duration = a.duration := by
    simp [LoadingAnimationState.start, LoadingAnimationState.update]
  have he1 : (0 : ℚ) ≤ ((t1 - t0 : ℤ) : ℚ) := by
    exact_mod_cast Int.sub_nonneg.mpr h01
  refine ⟨⟨?_, ?_, h1p⟩, ?_, hnoop⟩
  · rw [h1p]
    exact le_min (by norm_num) (div_nonneg he1 hdq.le)
  · rw [h1p]
    exact min_le_left _ _
  · by_cases hc : ((a.start t0).update t1).1.complete = true
    · rw [hnoop _ t2 hc]
    · have hcf : ((a.start t0).update t1).1.complete = false :=
        Bool.not_eq_true _ |>.mp hc
      rw [h1p]
      generalize hX : ((a.start t0).update t1).1 = X at h1s h1d hcf
      have h2p : (X.update t2).1.progress =
          min 1 (((t2 - X.start_time : ℤ) : ℚ) / (X.duration : ℚ)) := by
        simp [LoadingAnimationState.update, hcf]
      rw [h2p, h1s, h1d]
      refine min_le_min le_rfl ?_
      refine (div_le_div_iff_of_pos_right hdq).mpr ?_
      exact_mod_cast Int.sub_le_sub_right h12 t0

theorem loading_update_monotone_witness :
    (0 : ℤ) < (⟨0, false, 0, 3000⟩ : LoadingAnimationState).duration ∧
    (0 : ℤ) ≤ 1500 ∧ (1500 : ℤ) ≤ 3000 ∧
    (((⟨0, false, 0, 3000⟩ : LoadingAnimationState).start 0).update 1500).1.progress =
      min 1 (((1500 - 0 : ℤ) : ℚ) /
        ((⟨0, false, 0, 3000⟩ : LoadingAnimationState).duration : ℚ)) ∧
    (((⟨0, false, 0, 3000⟩ : LoadingAnimationState).start 0).update 1500).1.progress ≤
      ((((⟨0, false, 0, 3000⟩ : LoadingAnimationState).start 0).update 1500).1.update
        3000).1.progress :=
  ⟨by decide, by decide, by decide,
    (loading_update_monotone ⟨0, false, 0, 3000⟩ 0 1500 3000
      (by decide) (by decide) (by decide)).1.2.2,
    (loading_update_monotone ⟨0, false, 0, 3000⟩ 0 1500 3000
      (by decide) (by decide) (by decide)).2.1⟩

/-- C8: mission type "download" selects the download animation with fixed
duration 4000 ms, whose `update` at elapsed = 4000 ms reports complete; any
type tag whose lower-casing is not in the factory table falls back to the
default hack animation. -/
theorem download_animation_selected (t : ℤ) (ty : String)
    (hty : animationTable.lookup (pyLower ty) = none) :
    get_animation_for_mission "download" = AnimKind.download ∧
    (mkLoadingAnimation AnimKind.download).duration = 4000 ∧
    (((mkLoadingAnimation AnimKind.download).start t).update (t + 4000)).2 = true ∧
    (((mkLoadingAnimation AnimKind.download).start t).update (t + 4000)).1.complete
      = true ∧
    get_animation_for_mission ty = AnimKind.hack := by
  have harith : ((t + 4000 - t : ℤ) : ℚ) = 4000 := by push_cast; ring
  have hupd : (((mkLoadingAnimation AnimKind.download).start t).update
      (t + 4000)).2 = true := by
    simp only [mkLoadingAnimation, animationDuration, LoadingAnimationState.start,
      LoadingAnimationState.update]
    norm_num [harith]
  have hupdc : (((mkLoadingAnimation AnimKind.download).start t).update
      (t + 4000)).1.complete = true := by
    simp only [mkLoadingAnimation, animationDuration, LoadingAnimationState.start,
      LoadingAnimationState.update]
    norm_num [harith]
  refine ⟨by decide, by decide, hupd, hupdc, ?_⟩
  simp only [get_animation_for_mission]
  rw [hty]
  rfl

theorem download_animation_selected_witness :
    animationTable.lookup (pyLower "decrypt") = none ∧
    get_animation_for_mission "decrypt" = AnimKind.hack ∧
    (((mkLoadingAnimation AnimKind.download).start 0).update (0 + 4000)).2 = true :=
  ⟨by decide,
    (download_animation_selected 0 "decrypt" (by decide)).2.2.2.2,
    (download_animation_selected 0 "decrypt" (by decide)).2.2.1⟩

/-- C4 counterexample: in the start-up manager, unmuted with "select"
registered, `play` with NO free playback channel available does not return
None as the claim states: the code falls back to `pygame.mixer.Channel(2)`
and returns that channel. -/
theorem play_no_channel_counterexample :
    initSoundManager.play "select" none false = some 2 ∧
    initSoundManager.play "select" none false ≠ none := by
  decide

/-- C4 (amended): `play` returns None, changing no state and raising nothing,
when the manager is muted, when the name is not registered, or when an
exception occurs during playback (the bare except absorbs it); otherwise it
plays on the free channel when one exists and on fallback channel 2 when
none is available, returning the channel used. -/
theorem play_fails_silently (s : SoundManager) (soundName : String)
    (freeChannel : Option Nat) (playbackError : Bool) :
    (s.muted = true ∨ soundName ∉ s.sounds ∨ playbackError = true →
      s.play soundName freeChannel playbackError = none) ∧
    (s.muted = false → soundName ∈ s.sounds → playbackError = false →
      s.play soundName freeChannel playbackError = some (freeChannel.getD 2)) := by
  constructor
  · rintro (h | h | h)
    · simp [SoundManager.play, h]
    · simp [SoundManager.play, h]
    · by_cases hg : s.muted = true ∨ soundName ∉ s.sounds
      · simp [SoundManager.play, hg]
      · push_neg at hg
        have hm : s.muted = false := by simpa using hg.1
        simp [SoundManager.play, hm, hg.2, h]
  · intro h1 h2 h3
    simp [SoundManager.play, h1, h2, h3]

theorem play_fails_silently_witness :
    ({ initSoundManager with muted := true } : SoundManager).muted = true ∧
    ({ initSoundManager with muted := true } : SoundManager).play "select"
      (some 5) false = none ∧
    initSoundManager.muted = false ∧
    "select" ∈ initSoundManager.sounds ∧
    initSoundManager.play "select" (some 5) false = some 5 :=
  ⟨rfl,
    (play_fails_silently { initSoundManager with muted := true } "select"
      (some 5) false).1 (Or.inl rfl),
    rfl, by decide,
    (play_fails_silently initSoundManager "select" (some 5) false).2
      rfl (by decide) rfl⟩

/-- C5 counterexample: when establishing the database connection fails,
`fetch_all_missions` does not return the empty list: `get_connection` sits
outside the try block and its re-raised exception propagates to the caller. -/
theorem fetch_connection_error_counterexample :
    fetch_all_missions (Except.error DbError.connectionFailed) (Except.ok []) =
      Except.error DbError.connectionFailed ∧
    fetch_all_missions (Except.error DbError.connectionFailed) (Except.ok []) ≠
      Except.ok [] :=
  ⟨rfl, fun h => nomatch h⟩

/-- C5 (amended): failures in the query/row-processing path are absorbed by
the except branch and surface as the empty mission list; successful fetches
map the rows to mission dictionaries; but a connection-establishment failure
propagates out of `fetch_all_missions`. -/
theorem fetch_absorbs_query_errors :
    (∀ (e : DbError),
      fetch_all_missions (Except.ok ()) (Except.error e) = Except.ok []) ∧
    (∀ (rows : List MissionRow),
      fetch_all_missions (Except.ok ()) (Except.ok rows) =
        Except.ok (rows.map rowToMission)) ∧
    (∀ (e : DbError) (q : Except DbError (List MissionRow)),
      fetch_all_missions (Except.error e) q = Except.error e) :=
  ⟨fun _ => rfl, fun _ => rfl, fun _ _ => rfl⟩

/-- C6: two `toggle_mute` calls return the manager to its original muted flag
and leave the three stored volume levels exactly as they were (the clamp in
`set_volumes` is the identity on in-range levels, and every reachable manager
has in-range levels: the constructor sets 0.6/0.7/0.4 and `set_volumes`
always stores clamped values). -/
theorem toggle_mute_round_trip (s : SoundManager)
    (hm1 : 0 ≤ s.music_volume) (hm2 : s.music_volume ≤ 1)
    (hs1 : 0 ≤ s.sfx_volume) (hs2 : s.sfx_volume ≤ 1)
    (ha1 : 0 ≤ s.ambient_volume) (ha2 : s.ambient_volume ≤ 1) :
    (s.toggle_mute.1.toggle_mute).1.muted = s.muted ∧
    (s.toggle_mute.1.toggle_mute).1.music_volume = s.music_volume ∧
    (s.toggle_mute.1.toggle_mute).1.sfx_volume = s.sfx_volume ∧
    (s.toggle_mute.1.toggle_mute).1.ambient_volume = s.ambient_volume ∧
    s.toggle_mute.2 = !s.muted ∧ (s.toggle_mute.1.toggle_mute).2 = s.muted := by
  have hcm : clamp01 s.music_volume = s.music_volume := by
    rw [clamp01, min_eq_right hm2, max_eq_right hm1]
  have hcs : clamp01 s.sfx_volume = s.sfx_volume := by
    rw [clamp01, min_eq_right hs2, max_eq_right hs1]
  have hca : clamp01 s.ambient_volume = s.ambient_volume := by
    rw [clamp01, min_eq_right ha2, max_eq_right ha1]
  cases hmu : s.muted <;>
    simp [SoundManager.toggle_mute, SoundManager.set_volumes, hmu, hcm, hcs, hca]

theorem toggle_mute_round_trip_witness :
    (0 ≤ initSoundManager.music_volume ∧ initSoundManager.music_volume ≤ 1 ∧
      0 ≤ initSoundManager.sfx_volume ∧ initSoundManager.sfx_volume ≤ 1 ∧
      0 ≤ initSoundManager.ambient_volume ∧ initSoundManager.ambient_volume ≤ 1) ∧
    (initSoundManager.toggle_mute.1.toggle_mute).1.muted = initSoundManager.muted ∧
    (initSoundManager.toggle_mute.1.toggle_mute).1.music_volume =
      initSoundManager.music_volume ∧
    (initSoundManager.toggle_mute.1.toggle_mute).1.sfx_volume =
      initSoundManager.sfx_volume ∧
    (initSoundManager.toggle_mute.1.toggle_mute).1.ambient_volume =
      initSoundManager.ambient_volume := by
  have h := toggle_mute_round_trip initSoundManager (by norm_num [initSoundManager])
    (by norm_num [initSoundManager]) (by norm_num [initSoundManager])
    (by norm_num [initSoundManager]) (by norm_num [initSoundManager])
    (by norm_num [initSoundManager])
  exact ⟨⟨by norm_num [initSoundManager], by norm_num [initSoundManager],
    by norm_num [initSoundManager], by norm_num [initSoundManager],
    by norm_num [initSoundManager], by norm_num [initSoundManager]⟩,
    h.1, h.2.1, h.2.2.1, h.2.2.2.1⟩

/-- C7: `play_music` stops any current music before starting the new track,
and at most one music track is active afterwards: on success the new track is
the only one on the music channel and is `current_music`; on failure the
state is unchanged; the music channel always mirrors `current_music`
(an Option, so at most one track); and after `stop_music` nothing is current
and nothing is on the channel. -/
theorem play_music_single_track (s : SoundManager) (track : String) (fi fo : ℤ)
    (hcons : s.music_channel = s.current_music) :
    ((s.play_music track fi).2 = true →
      (s.play_music track fi).1.current_music = some track ∧
      (s.play_music track fi).1.music_channel = some track) ∧
    ((s.play_music track fi).2 = false → (s.play_music track fi).1 = s) ∧
    (s.play_music track fi).1.music_channel =
      (s.play_music track fi).1.current_music ∧
    (s.stop_music fo).current_music = none ∧
    (s.stop_music fo).music_channel = none := by
  have hstop : (s.stop_music fo).current_music = none ∧
      (s.stop_music fo).music_channel = none := by
    cases hcur : s.current_music with
    | none =>
        have hch : s.music_channel = none := by rw [hcons, hcur]
        constructor <;> simp [SoundManager.stop_music, hcur, hch]
    | some x =>
        constructor <;> simp [SoundManager.stop_music, hcur]
  by_cases hg : s.muted = true ∨ track ∉ s.music_tracks
  · have hpm : s.play_music track fi = (s, false) := by
      simp [SoundManager.play_music, hg]
    refine ⟨fun h => ?_, fun _ => ?_, ?_, hstop.1, hstop.2⟩
    · rw [hpm] at h
      exact absurd h (by simp)
    · rw [hpm]
    · rw [hpm]
      exact hcons
  · refine ⟨fun _ => ⟨?_, ?_⟩, fun h => ?_, ?_, hstop.1, hstop.2⟩
    · simp [SoundManager.play_music, hg]
    · simp [SoundManager.play_music, hg]
    · exfalso
      revert h
      simp [SoundManager.play_music, hg]
    · simp [SoundManager.play_music, hg]

theorem play_music_single_track_witness :
    initSoundManager.music_channel = initSoundManager.current_music ∧
    ((initSoundManager.play_music "hacking" 1000).2 = true →
      (initSoundManager.play_music "hacking" 1000).1.current_music =
        some "hacking" ∧
      (initSoundManager.play_music "hacking" 1000).1.music_channel =
        some "hacking") ∧
    (initSoundManager.stop_music 1000).current_music = none :=
  ⟨rfl,
    (play_music_single_track initSoundManager "hacking" 1000 1000 rfl).1,
    (play_music_single_track initSoundManager "hacking" 1000 1000 rfl).2.2.2.1⟩

/-- C10: while the manager is muted, `play_music` is a no-op at the public
interface: it returns False and leaves the whole state (in particular
`current_music`) unchanged, for every track name and fade-in. -/
theorem muted_play_music_noop (s : SoundManager) (track : String) (fi : ℤ)
    (h : s.muted = true) :
    s.play_music track fi = (s, false) := by
  simp [SoundManager.play_music, h]

theorem muted_play_music_noop_witness :
    ({ initSoundManager with muted := true } : SoundManager).muted = true ∧
    ({ initSoundManager with muted := true } : SoundManager).play_music
      "hacking" 1000 = ({ initSoundManager with muted := true }, false) :=
  ⟨rfl, muted_play_music_noop { initSoundManager with muted := true }
    "hacking" 1000 rfl⟩

theorem clip_bounds (lo hi x : ℚ) (h : lo ≤ hi) :
    lo ≤ clip lo hi x ∧ clip lo hi x ≤ hi :=
  ⟨le_max_left _ _, max_le h (min_le_left _ _)⟩

theorem pytrunc_bounds (q : ℚ) (m : ℤ) (h1 : -(m : ℚ) ≤ q) (h2 : q ≤ (m : ℚ)) :
    -m ≤ pytrunc q ∧ pytrunc q ≤ m := by
  have hm : (0 : ℤ) ≤ m := by
    by_contra hneg
    push_neg at hneg
    have hq1 : (m : ℚ) < 0 := by exact_mod_cast hneg
    linarith
  rw [pytrunc]
  by_cases hq : 0 ≤ q
  · rw [if_pos hq]
    constructor
    · have hf : 0 ≤ ⌊q⌋ := Int.le_floor.mpr (by exact_mod_cast hq)
      omega
    · have hf := Int.floor_mono h2
      rwa [Int.floor_intCast] at hf
  · rw [if_neg hq]
    constructor
    · have hcast : (-(m : ℚ)) = ((-m : ℤ) : ℚ) := by push_cast; ring
      have hcm := Int.ceil_mono h1
      rw [hcast, Int.ceil_intCast] at hcm
      exact hcm
    · exact Int.ceil_le.mpr h2

/-- C9: every sample of the generated waveform buffers stays inside the valid
signed 16-bit range [-32768, 32767] (the beep is bounded by construction at
half amplitude; the error and download sounds are clipped before scaling),
for every frequency, duration and noise value; and the error sound attack
ramp starts at exactly 0 at the first sample of the buffer and the release
ramp ends at exactly 0 at its last sample (envelope[0] = 0 and
envelope[n-1] = 0, so the first and last output samples are 0). `sine` is
the real sine (of pi times the argument), abstract but bounded by 1. -/
theorem waveform_samples_in_range (sine : ℚ → ℚ) (frequency duration : ℚ)
    (n i : ℕ) (tone noise : ℚ)
    (hsine : ∀ x, -1 ≤ sine x ∧ sine x ≤ 1) :
    (-32768 ≤ beepInt16 sine frequency duration n i ∧
      beepInt16 sine frequency duration n i ≤ 32767) ∧
    (-32768 ≤ errInt16 sine i ∧ errInt16 sine i ≤ 32767) ∧
    (-32768 ≤ dlInt16 tone noise ∧ dlInt16 tone noise ≤ 32767) ∧
    errEnvelope 0 = 0 ∧ errEnvelope (errNSamples - 1) = 0 ∧
    errAudio sine 0 = 0 ∧ errAudio sine (errNSamples - 1) = 0 := by
  have henv0 : errEnvelope 0 = 0 := by
    norm_num [errEnvelope, errAttackLen]
  have henvN : errEnvelope (errNSamples - 1) = 0 := by
    norm_num [errEnvelope, errAttackLen, errNSamples, errReleaseLen]
  have hclip0 : clip (-(99/100)) (99/100) (0 : ℚ) = 0 := by
    rw [clip, min_eq_right (by norm_num : (0 : ℚ) ≤ 99/100),
      max_eq_right (by norm_num : (-(99/100) : ℚ) ≤ 0)]
  have haud0 : errAudio sine 0 = 0 := by
    simp only [errAudio, henv0, mul_zero]
    exact hclip0
  have haudN : errAudio sine (errNSamples - 1) = 0 := by
    simp only [errAudio, henvN, mul_zero]
    exact hclip0
  refine ⟨?_, ?_, ?_, henv0, henvN, haud0, haudN⟩
  · obtain ⟨hl, hr⟩ := hsine (2 * frequency * beepSampleTime duration n i)
    have hb := pytrunc_bounds (beepTone sine frequency duration n i * 32767) 32767
      (by simp only [beepTone]; push_cast; linarith)
      (by simp only [beepTone]; push_cast; linarith)
    exact ⟨le_trans (by norm_num) hb.1, hb.2⟩
  · have hcl := clip_bounds (-(99/100)) (99/100)
      ((4/10) * sine (2 * errFreq i * errTime i) * errEnvelope i) (by norm_num)
    have hb := pytrunc_bounds (errAudio sine i * 32767) 32767
      (by simp only [errAudio]; push_cast; linarith [hcl.1, hcl.2])
      (by simp only [errAudio]; push_cast; linarith [hcl.1, hcl.2])
    exact ⟨le_trans (by norm_num) hb.1, hb.2⟩
  · have hcl := clip_bounds (-1) 1 (tone * (3/10) + noise) (by norm_num)
    have hb := pytrunc_bounds (dlAudio tone noise * 32767) 32767
      (by simp only [dlAudio]; push_cast; linarith [hcl.1, hcl.2])
      (by simp only [dlAudio]; push_cast; linarith [hcl.1, hcl.2])
    exact ⟨le_trans (by norm_num) hb.1, hb.2⟩

theorem waveform_samples_in_range_witness :
    (∀ x : ℚ, -1 ≤ (fun _ : ℚ => (0 : ℚ)) x ∧ (fun _ : ℚ => (0 : ℚ)) x ≤ 1) ∧
    (-32768 ≤ beepInt16 (fun _ : ℚ => 0) 440 100 4410 7 ∧
      beepInt16 (fun _ : ℚ => 0) 440 100 4410 7 ≤ 32767) ∧
    errAudio (fun _ : ℚ => 0) 0 = 0 :=
  ⟨fun x => by norm_num,
    (waveform_samples_in_range (fun _ : ℚ => 0) 440 100 4410 7 0 0
      (fun x => by norm_num)).1,
    (waveform_samples_in_range (fun _ : ℚ => 0) 440 100 4410 7 0 0
      (fun x => by norm_num)).2.2.2.2.2.1⟩

end SIGMA
